import Mathlib

/-!
Verification of the SharePoint/OneDrive connector (`universal_mcp_sharepoint`).

The connector (`app.py`) wraps a Graph API client behind a lazily initialized
`client` property with credential existence checks, and exposes six
file/folder operations.  Pure parts (extension classification, UTF-8 and
base64 handling, record construction) are embedded directly from the source;
the remote drive service, which is not part of this repository, is modelled
from the specification as a plain store of folders and files.

Strings that the connector manipulates character-by-character (file paths,
file contents, raw bytes) are embedded as `List Nat`: Unicode code points for
text, byte values for binary data.
-/

/-- Code points of a Lean string literal, used to write concrete paths. -/

def codes (s : String) : List Nat := s.data.map Char.toNat

/-- ASCII lowercasing of one code point. Embeds Python `str.lower` on the
ASCII range, which is the range the extension allow-list lives in. -/

def asciiLower (n : Nat) : Nat := if 65 ≤ n ∧ n ≤ 90 then n + 32 else n

/-- Embeds `file_path.lower()` (app.py line 167). -/

def lowerCodes (l : List Nat) : List Nat := l.map asciiLower

/-- The text-extension allow-list of `get_document_content` (app.py line 167). -/

def textExts : List (List Nat) :=
  [codes ".txt", codes ".csv", codes ".json", codes ".xml", codes ".html",
   codes ".md", codes ".js", codes ".css", codes ".py"]

/-- Embeds `file_path.lower().endswith(('.txt', ..., '.py'))` (app.py line 167). -/

def isTextFile (p : List Nat) : Bool :=
  textExts.any (fun e => e.isSuffixOf (lowerCodes p))

/-- Embeds `file_path.split("/")[-1]` (app.py line 170): the segment after the
last slash (code point 47), or the whole path when there is no slash. -/

def lastComponent (p : List Nat) : List Nat :=
  p.foldl (fun acc c => if c = 47 then [] else acc ++ [c]) []

/-- A Unicode scalar value: what a Python `str` character that survives
`.encode('utf-8')` can be (below 0x110000 and not a surrogate). -/

def validCp (c : Nat) : Bool :=
  decide (c < 1114112 ∧ (c < 55296 ∨ 57344 ≤ c))

/-- UTF-8 encoding of one code point (the `'utf-8'` codec used implicitly by
the upload path and explicitly by `content.decode('utf-8')`). -/

def utf8EncodeChar (c : Nat) : List Nat :=
  if c < 128 then [c]
  else if c < 2048 then [192 + c / 64, 128 + c % 64]
  else if c < 65536 then [224 + c / 4096, 128 + c / 64 % 64, 128 + c % 64]
  else [240 + c / 262144, 128 + c / 4096 % 64, 128 + c / 64 % 64, 128 + c % 64]

/-- UTF-8 encoding of a sequence of code points. -/

def utf8Encode (s : List Nat) : List Nat := (s.map utf8EncodeChar).flatten

/-- Is `b` a UTF-8 continuation byte (0x80–0xBF)? -/

def contB (b : Nat) : Bool := decide (128 ≤ b ∧ b < 192)

/-- Two-byte UTF-8 sequence step: `b0` is a 0xC0–0xDF lead byte. -/

def utf8Step2 (b0 : Nat) : List Nat → Option (Nat × List Nat)
  | b1 :: rest2 =>
    if contB b1 then
      if (b0 - 192) * 64 + (b1 - 128) < 128 then none
      else some ((b0 - 192) * 64 + (b1 - 128), rest2)
    else none
  | [] => none

/-- Three-byte UTF-8 sequence step: `b0` is a 0xE0–0xEF lead byte. -/

def utf8Step3 (b0 : Nat) : List Nat → Option (Nat × List Nat)
  | b1 :: b2 :: rest2 =>
    if contB b1 && contB b2 then
      if (b0 - 224) * 4096 + (b1 - 128) * 64 + (b2 - 128) < 2048 then none
      else if 55296 ≤ (b0 - 224) * 4096 + (b1 - 128) * 64 + (b2 - 128) ∧
               (b0 - 224) * 4096 + (b1 - 128) * 64 + (b2 - 128) < 57344 then none
      else some ((b0 - 224) * 4096 + (b1 - 128) * 64 + (b2 - 128), rest2)
    else none
  | _ => none

/-- Four-byte UTF-8 sequence step: `b0` is a 0xF0–0xF4 lead byte. -/

def utf8Step4 (b0 : Nat) : List Nat → Option (Nat × List Nat)
  | b1 :: b2 :: b3 :: rest2 =>
    if contB b1 && contB b2 && contB b3 then
      if (b0 - 240) * 262144 + (b1 - 128) * 4096 + (b2 - 128) * 64 + (b3 - 128) < 65536 then none
      else if 1114112 ≤ (b0 - 240) * 262144 + (b1 - 128) * 4096 + (b2 - 128) * 64 + (b3 - 128) then none
      else some ((b0 - 240) * 262144 + (b1 - 128) * 4096 + (b2 - 128) * 64 + (b3 - 128), rest2)
    else none
  | _ => none

/-- One decoding step of strict UTF-8: the first code point and the remaining
bytes, or `none` on empty or malformed input (stray continuation byte,
overlong form, surrogate, or value above 0x10FFFF), exactly the inputs
Python's `'utf-8'` codec rejects. -/

def utf8Step : List Nat → Option (Nat × List Nat)
  | [] => none
  | b0 :: rest =>
    if b0 < 128 then some (b0, rest)
    else if b0 < 192 then none
    else if b0 < 224 then utf8Step2 b0 rest
    else if b0 < 240 then utf8Step3 b0 rest
    else if b0 < 245 then utf8Step4 b0 rest
    else none

/-- Iterated decoding with fuel; every step consumes at least one byte, so
fuel equal to the byte count is always sufficient. -/

def utf8DecodeAux : Nat → List Nat → Option (List Nat)
  | _, [] => some []
  | 0, _ :: _ => none
  | fuel + 1, b0 :: rest =>
    match utf8Step (b0 :: rest) with
    | some cr => (utf8DecodeAux fuel cr.2).map (fun s => cr.1 :: s)
    | none => none

/-- Strict UTF-8 decoding of a byte sequence, embedding Python
`bytes.decode('utf-8')` (app.py line 168). -/

def utf8Decode (bs : List Nat) : Option (List Nat) := utf8DecodeAux bs.length bs

/-- ASCII code of the standard base64 alphabet character for a sextet,
embedding the alphabet used by Python `base64.b64encode` (app.py line 168). -/

def b64c (n : Nat) : Nat :=
  if n < 26 then 65 + n
  else if n < 52 then 97 + (n - 26)
  else if n < 62 then 48 + (n - 52)
  else if n = 62 then 43
  else 47

/-- Inverse of the base64 alphabet: the sextet encoded by an ASCII code, or
`none` for a character outside the alphabet. Helper used to state that the
base64 payload is byte-identical to the downloaded bytes. -/

def b64dc (a : Nat) : Option Nat :=
  if 65 ≤ a ∧ a < 91 then some (a - 65)
  else if 97 ≤ a ∧ a < 123 then some (26 + (a - 97))
  else if 48 ≤ a ∧ a < 58 then some (52 + (a - 48))
  else if a = 43 then some 62
  else if a = 47 then some 63
  else none

/-- Standard base64 encoding of a byte sequence to ASCII codes with `=`
padding (code 61), embedding `base64.b64encode(content).decode('ascii')`
(app.py line 168). -/

def b64encode : List Nat → List Nat
  | [] => []
  | [a] => [b64c (a / 4), b64c (a % 4 * 16), 61, 61]
  | [a, b] => [b64c (a / 4), b64c (a % 4 * 16 + b / 16), b64c (b % 16 * 4), 61]
  | a :: b :: c :: rest =>
    b64c (a / 4) :: b64c (a % 4 * 16 + b / 16) :: b64c (b % 16 * 4 + c / 64) ::
      b64c (c % 64) :: b64encode rest

/-- Base64 decoding of ASCII codes back to bytes; the inverse used to state
the round-trip property for binary payloads. -/

def b64decode : List Nat → Option (List Nat)
  | [] => some []
  | c1 :: c2 :: c3 :: c4 :: rest =>
    match b64dc c1, b64dc c2 with
    | some s1, some s2 =>
      if c3 = 61 then
        if c4 = 61 ∧ rest = [] then some [s1 * 4 + s2 / 16] else none
      else
        match b64dc c3 with
        | some s3 =>
          if c4 = 61 then
            if rest = [] then some [s1 * 4 + s2 / 16, s2 % 16 * 16 + s3 / 4] else none
          else
            match b64dc c4 with
            | some s4 =>
              (b64decode rest).map
                (fun bs => (s1 * 4 + s2 / 16) :: (s2 % 16 * 16 + s3 / 4) ::
                  (s3 % 4 * 64 + s4) :: bs)
            | none => none
        | none => none
    | _, _ => none
  | _ => none

/-- A raised Python exception: class name and message. -/

structure PyErr where
  etype : String
  msg : String
deriving DecidableEq

/-- The dictionary returned by `get_document_content` (app.py lines 169-174):
exactly one of the `content` (decoded text, iff classified text) and
`content_base64` (base64 ASCII codes, iff classified binary) keys is present. -/

structure ContentRecord where
  name : List Nat
  content_type : String
  content : Option (List Nat)
  content_base64 : Option (List Nat)
  size : Nat
deriving DecidableEq

/-- The pure tail of `get_document_content` (app.py lines 165-174): given the
requested path and the downloaded bytes, classify by extension, decode UTF-8
or base64-encode, and build the result dictionary. -/

def processContent (fp : List Nat) (bytes : List Nat) : Except PyErr ContentRecord :=
  if isTextFile fp then
    match utf8Decode bytes with
    | some s => .ok ⟨lastComponent fp, "text", some s, none, bytes.length⟩
    | none => .error ⟨"UnicodeDecodeError", "invalid utf-8"⟩
  else
    .ok ⟨lastComponent fp, "binary", none, some (b64encode bytes), bytes.length⟩

/-- The dictionary built by `list_documents` for one file
(app.py lines 123-129). -/

structure DocRecord where
  name : String
  url : Option String
  size : Nat
  created : Option String
  modified : Option String
deriving DecidableEq

/-- The credential dictionary returned by `integration.get_credentials()`;
only the fields the connector reads. -/

structure Creds where
  access_token : Option String
  refresh_token : Option String
deriving DecidableEq

/-- An integration handle; `credentials = none` embeds a falsy
`get_credentials()` result. -/

structure IntegrationS where
  credentials : Option Creds
deriving DecidableEq

/-- The mutable attributes of a `SharepointApp` instance set in `__init__`
(app.py lines 22-30); client handles are numbered so distinct creations are
distinguishable. -/

structure AppState where
  integration : Option IntegrationS
  clientH : Option Nat
  siteUrl : Option String
  nextClientId : Nat
deriving DecidableEq

/-- One file stored by the remote drive. Modelled from the spec: the remote
file-storage service is out of scope of the repository, so it is embedded as
a plain store; `url`, `created` and `modified` are server-assigned metadata. -/

structure FileEntry where
  folder : String
  name : String
  bytes : List Nat
  url : Option String := none
  created : Option String := none
  modified : Option String := none
deriving DecidableEq

/-- Modelled from the spec: the state of the remote drive, a list of
(parent path, folder name) pairs in creation order, a list of stored files,
and the site id reported by `sites.root.get()`. `none` as a parent path is
the drive root. -/

structure Drive where
  folders : List (Option String × String)
  files : List FileEntry
  siteId : String
deriving DecidableEq

/-- The whole system: connector state plus remote drive state. -/

structure Sys where
  app : AppState
  drive : Drive
deriving DecidableEq

/-- An observable effect of an operation: creating a new GraphClient session,
or issuing one remote call. -/

inductive Event where
  | createClient
  | remote (endpoint : String)
deriving DecidableEq

/-- Number of client-session creations in a trace. -/

def countCreates (tr : List Event) : Nat :=
  (tr.filter (fun e => decide (e = Event.createClient))).length

/-- The credential checks of the `client` property succeed
(app.py lines 40-47): an integration is present, it returns credentials, and
they hold a truthy `access_token`. -/

def goodCreds (a : AppState) : Bool :=
  match a.integration with
  | none => false
  | some intg =>
    match intg.credentials with
    | none => false
    | some creds =>
      match creds.access_token with
      | none => false
      | some tok => decide (tok ≠ "")

/-- The `client` property (app.py lines 33-66): validates credentials on
every access, then returns the cached client or creates one, fetching the
current user and root site (two remote calls) and caching the handle.
Returns the result or raised error, the state after, and the event trace. -/

def getClient (s : Sys) : Except PyErr Nat × Sys × List Event :=
  match s.app.integration with
  | none => (.error ⟨"ValueError", "Integration is required"⟩, s, [])
  | some intg =>
    match intg.credentials with
    | none => (.error ⟨"ValueError", "No credentials found"⟩, s, [])
    | some creds =>
      match creds.access_token with
      | none => (.error ⟨"ValueError", "No access token found"⟩, s, [])
      | some tok =>
        if tok = "" then (.error ⟨"ValueError", "No access token found"⟩, s, [])
        else
          match s.app.clientH with
          | some cid => (.ok cid, s, [])
          | none =>
            (.ok s.app.nextClientId,
             { s with app := { s.app with
                 clientH := some s.app.nextClientId,
                 nextClientId := s.app.nextClientId + 1,
                 siteUrl := some s.drive.siteId } },
             [.createClient, .remote "me.get", .remote "sites.root.get"])

/-- Python truthiness of the optional `folder_path` argument: `None` and the
empty string select the drive root (`if folder_path:` in app.py lines 80
and 101). -/

def pathArg : Option String → Option String
  | none => none
  | some p => if p = "" then none else some p

/-- Modelled from the spec: the path a folder entry is reachable under. -/

def joinParent : Option String → String → String
  | none, n => n
  | some q, n => q ++ "/" ++ n

/-- Modelled from the spec: `get_by_path` resolves the drive root and every
path under which a folder was created; other paths fail with the remote
itemNotFound error. -/

def pathValid (d : Drive) : Option String → Bool
  | none => true
  | some p => d.folders.any (fun e => decide (joinParent e.1 e.2 = p))

/-- Modelled from the spec: the ordered folder names directly under a parent
path, as returned by the remote `get_folders` call (app.py line 86). -/

def foldersUnder (d : Drive) (fp : Option String) : List String :=
  (d.folders.filter (fun e => decide (e.1 = fp))).map (fun e => e.2)

/-- The record translation of `list_documents` (app.py lines 123-129) applied
to a stored file. -/

def toDocRecord (e : FileEntry) : DocRecord :=
  ⟨e.name, e.url, e.bytes.length, e.created, e.modified⟩

/-- Modelled from the spec: the ordered document records for the files in a
folder, as returned by the remote `get_files` call. -/

def docsUnder (d : Drive) (fp : String) : List DocRecord :=
  (d.files.filter (fun e => decide (e.folder = fp))).map toDocRecord

/-- Modelled from the spec: resolving a full file path to a stored file. -/

def findFile (d : Drive) (fp : String) : Option FileEntry :=
  d.files.find? (fun e => decide (e.folder ++ "/" ++ e.name = fp))

/-- The remote error surfaced by `execute_query` on an unresolvable path. -/

def nfErr : PyErr := ⟨"ClientRequestException", "itemNotFound"⟩

/-- One result value of the six operations. -/

inductive RValue where
  | names (l : List String)
  | docs (l : List DocRecord)
  | contentR (r : ContentRecord)
  | boolean (b : Bool)
deriving DecidableEq

/-- One invocation of a connector operation with its arguments. -/

inductive Op where
  | listFolders (fp : Option String)
  | createFolder (name : String) (fp : Option String)
  | listDocuments (fp : String)
  | createDocument (fp : String) (name : String) (content : List Nat)
  | getDocumentContent (fp : String)
  | deleteFile (fp : String)
deriving DecidableEq

/-- The remote phase of each operation (everything after the `client`
property succeeds), acting on the drive alone: result or error, drive after,
and the endpoints of the remote calls issued, in order. The connector logic
is from app.py lines 68-190; the store semantics of the remote service is
modelled from the spec (upload replaces a file stored under the same path
and name; creation appends). -/

def driveStep : Op → Drive → Except PyErr RValue × Drive × List String
  | .listFolders fp, d =>
    if pathValid d (pathArg fp) then
      (.ok (.names (foldersUnder d (pathArg fp))), d, ["get_folders"])
    else (.error nfErr, d, ["get_folders"])
  | .createFolder name fp, d =>
    if pathValid d (pathArg fp) then
      let d2 : Drive := { d with folders := d.folders ++ [(pathArg fp, name)] }
      ((if pathValid d2 (pathArg fp) then .ok (.names (foldersUnder d2 (pathArg fp)))
        else .error nfErr),
       d2, ["create_folder", "get_folders"])
    else (.error nfErr, d, ["create_folder"])
  | .listDocuments fp, d =>
    if pathValid d (some fp) then
      (.ok (.docs (docsUnder d fp)), d, ["get_files"])
    else (.error nfErr, d, ["get_files"])
  | .createDocument fp name content, d =>
    if content.all validCp then
      if pathValid d (some fp) then
        let keep := d.files.filter (fun e => decide (¬ (e.folder = fp ∧ e.name = name)))
        let d2 : Drive := { d with files := ⟨fp, name, utf8Encode content, none, none, none⟩ :: keep }
        ((if pathValid d2 (some fp) then .ok (.docs (docsUnder d2 fp)) else .error nfErr),
         d2, ["upload_file", "get_files"])
      else (.error nfErr, d, ["upload_file"])
    else (.error ⟨"UnicodeEncodeError", "surrogates not allowed"⟩, d, [])
  | .getDocumentContent fp, d =>
    match findFile d fp with
    | some e =>
      match processContent (codes fp) e.bytes with
      | .ok r => (.ok (.contentR r), d, ["get", "download"])
      | .error er => (.error er, d, ["get", "download"])
    | none => (.error nfErr, d, ["get"])
  | .deleteFile fp, d =>
    if d.files.any (fun e => decide (e.folder ++ "/" ++ e.name = fp)) then
      (.ok (.boolean true),
       { d with files := d.files.filter (fun e => decide (¬ (e.folder ++ "/" ++ e.name = fp))) },
       ["delete_object"])
    else (.error nfErr, d, ["delete_object"])

/-- Running one operation on the full system: every operation evaluates the
`client` property first (each body's first expression is `self.client...`),
then performs its remote phase. -/

def runOp (op : Op) (s : Sys) : Except PyErr RValue × Sys × List Event :=
  match getClient s with
  | (.error e, s1, tr) => (.error e, s1, tr)
  | (.ok _, s1, tr) =>
    let out := driveStep op s1.drive
    (out.1, { s1 with drive := out.2.1 }, tr ++ out.2.2.map Event.remote)

/-- Running a sequence of operations, collecting the full event trace. -/

def runOps : List Op → Sys → Sys × List Event
  | [], s => (s, [])
  | op :: ops, s =>
    let out := runOp op s
    let rest := runOps ops out.2.1
    (rest.1, out.2.2 ++ rest.2)

/-- The connector state after a fresh client creation. -/

def freshApp (s : Sys) : AppState :=
  { s.app with
    clientH := some s.app.nextClientId,
    nextClientId := s.app.nextClientId + 1,
    siteUrl := some s.drive.siteId }

/-- How many client creations the next operation may still perform. -/

def clientBudget (a : AppState) : Nat :=
  match a.clientH with
  | none => 1
  | some _ => 0

/-- A sample credential set, integration, and connector/drive states used as
concrete witnesses. -/

def sampleCreds : Creds := ⟨some "tok", none⟩

def sampleIntegration : IntegrationS := ⟨some sampleCreds⟩

def sampleDrive : Drive :=
  ⟨[(none, "docs")], [⟨"docs", "a.txt", [104, 105], none, none, none⟩], "site0"⟩

/-- A fresh connector (no cached client) with valid credentials. -/

def sampleSys : Sys := ⟨⟨some sampleIntegration, none, none, 0⟩, sampleDrive⟩

/-- A connector with a cached client handle and valid credentials. -/

def cachedSys : Sys := ⟨⟨some sampleIntegration, some 0, some "site0", 1⟩, sampleDrive⟩

/-- A connector constructed without an integration. -/

def noIntegrationSys : Sys := ⟨⟨none, none, none, 0⟩, sampleDrive⟩

/-- A connector holding a cached client (as supplied at construction) but no
integration. -/

def cachedBadSys : Sys := ⟨⟨none, some 0, none, 1⟩, sampleDrive⟩

/-- Modelled from the spec: the drive after `upload_file` stores the UTF-8
encoding of the uploaded text under the target folder and name, replacing
any file already stored under them. -/

def uploadDrive (d : Drive) (fp nm : String) (content : List Nat) : Drive :=
  { d with files := ⟨fp, nm, utf8Encode content, none, none, none⟩ ::
      d.files.filter (fun e => decide (¬ (e.folder = fp ∧ e.name = nm))) }

/-- Decidable equality on raised-or-returned results, used to evaluate the
model at concrete inputs. -/

instance {A B : Type} [DecidableEq A] [DecidableEq B] : DecidableEq (Except A B) := fun x y =>
  match x, y with
  | .ok a, .ok b =>
    if h : a = b then .isTrue (by rw [h]) else .isFalse (fun hh => h (by injection hh))
  | .error a, .error b =>
    if h : a = b then .isTrue (by rw [h]) else .isFalse (fun hh => h (by injection hh))
  | .ok a, .error b => .isFalse (fun hh => Except.noConfusion hh)
  | .error a, .ok b => .isFalse (fun hh => Except.noConfusion hh)

theorem utf8Step_encodeChar (c : Nat) (h : validCp c = true) (bs : List Nat) :
    utf8Step (utf8EncodeChar c ++ bs) = some (c, bs) := by
  have hv : c < 1114112 ∧ (c < 55296 ∨ 57344 ≤ c) := by
    simpa [validCp] using h
  by_cases h1 : c < 128
  · have he : utf8EncodeChar c = [c] := by simp [utf8EncodeChar, h1]
    rw [he]
    simp [utf8Step, h1]
  · by_cases h2 : c < 2048
    · have he : utf8EncodeChar c = [192 + c / 64, 128 + c % 64] := by
        simp [utf8EncodeChar, h1, h2]
      rw [he]
      have e1 : ¬ (192 + c / 64 < 128) := by omega
      have e2 : ¬ (192 + c / 64 < 192) := by omega
      have e3 : 192 + c / 64 < 224 := by omega
      have e4 : contB (128 + c % 64) = true := by
        simp only [contB, decide_eq_true_eq]; omega
      have e5 : ¬ ((192 + c / 64 - 192) * 64 + (128 + c % 64 - 128) < 128) := by omega
      have e6 : (192 + c / 64 - 192) * 64 + (128 + c % 64 - 128) = c := by omega
      simp only [List.cons_append, List.nil_append, utf8Step]
      rw [if_neg e1, if_neg e2, if_pos e3]
      simp only [utf8Step2, e4, if_true]
      rw [if_neg e5, e6]
    · by_cases h3 : c < 65536
      · have he : utf8EncodeChar c = [224 + c / 4096, 128 + c / 64 % 64, 128 + c % 64] := by
          simp [utf8EncodeChar, h1, h2, h3]
        rw [he]
        have e1 : ¬ (224 + c / 4096 < 128) := by omega
        have e2 : ¬ (224 + c / 4096 < 192) := by omega
        have e3 : ¬ (224 + c / 4096 < 224) := by omega
        have e4 : 224 + c / 4096 < 240 := by omega
        have e5 : (contB (128 + c / 64 % 64) && contB (128 + c % 64)) = true := by
          simp only [contB, Bool.and_eq_true, decide_eq_true_eq]; omega
        have e6 : (224 + c / 4096 - 224) * 4096 + (128 + c / 64 % 64 - 128) * 64 +
            (128 + c % 64 - 128) = c := by omega
        have e7 : ¬ ((224 + c / 4096 - 224) * 4096 + (128 + c / 64 % 64 - 128) * 64 +
            (128 + c % 64 - 128) < 2048) := by omega
        have e8 : ¬ (55296 ≤ (224 + c / 4096 - 224) * 4096 + (128 + c / 64 % 64 - 128) * 64 +
            (128 + c % 64 - 128) ∧
            (224 + c / 4096 - 224) * 4096 + (128 + c / 64 % 64 - 128) * 64 +
            (128 + c % 64 - 128) < 57344) := by omega
        simp only [List.cons_append, List.nil_append, utf8Step]
        rw [if_neg e1, if_neg e2, if_neg e3, if_pos e4]
        simp only [utf8Step3, e5, if_true]
        rw [if_neg e7, if_neg e8, e6]
      · have he : utf8EncodeChar c =
            [240 + c / 262144, 128 + c / 4096 % 64, 128 + c / 64 % 64, 128 + c % 64] := by
          simp [utf8EncodeChar, h1, h2, h3]
        rw [he]
        have e1 : ¬ (240 + c / 262144 < 128) := by omega
        have e2 : ¬ (240 + c / 262144 < 192) := by omega
        have e3 : ¬ (240 + c / 262144 < 224) := by omega
        have e4 : ¬ (240 + c / 262144 < 240) := by omega
        have e5 : 240 + c / 262144 < 245 := by omega
        have e6 : (contB (128 + c / 4096 % 64) && contB (128 + c / 64 % 64) &&
            contB (128 + c % 64)) = true := by
          simp only [contB, Bool.and_eq_true, decide_eq_true_eq]; omega
        have e7 : (240 + c / 262144 - 240) * 262144 + (128 + c / 4096 % 64 - 128) * 4096 +
            (128 + c / 64 % 64 - 128) * 64 + (128 + c % 64 - 128) = c := by omega
        have e8 : ¬ ((240 + c / 262144 - 240) * 262144 + (128 + c / 4096 % 64 - 128) * 4096 +
            (128 + c / 64 % 64 - 128) * 64 + (128 + c % 64 - 128) < 65536) := by omega
        have e9 : ¬ (1114112 ≤ (240 + c / 262144 - 240) * 262144 +
            (128 + c / 4096 % 64 - 128) * 4096 +
            (128 + c / 64 % 64 - 128) * 64 + (128 + c % 64 - 128)) := by omega
        simp only [List.cons_append, List.nil_append, utf8Step]
        rw [if_neg e1, if_neg e2, if_neg e3, if_neg e4, if_pos e5]
        simp only [utf8Step4, e6, if_true]
        rw [if_neg e8, if_neg e9, e7]

theorem utf8EncodeChar_ne_nil (c : Nat) : utf8EncodeChar c ≠ [] := by
  unfold utf8EncodeChar
  split <;> simp_all
  split <;> simp_all
  split <;> simp_all

theorem utf8DecodeAux_encodeChar (c : Nat) (h : validCp c = true) (fuel : Nat)
    (bs : List Nat) :
    utf8DecodeAux (fuel + 1) (utf8EncodeChar c ++ bs) =
      (utf8DecodeAux fuel bs).map (fun s => c :: s) := by
  rcases he : utf8EncodeChar c with _ | ⟨b0, r⟩
  · exact absurd he (utf8EncodeChar_ne_nil c)
  · have hs : utf8Step (b0 :: (r ++ bs)) = some (c, bs) := by
      have := utf8Step_encodeChar c h bs
      rw [he] at this
      simpa using this
    simp only [List.cons_append, utf8DecodeAux, List.append_eq, hs]

theorem utf8DecodeAux_encode (s : List Nat) (hs : s.all validCp = true) :
    ∀ fuel, s.length ≤ fuel → utf8DecodeAux fuel (utf8Encode s) = some s := by
  induction s with
  | nil =>
    intro fuel _
    cases fuel <;> simp [utf8Encode, utf8DecodeAux]
  | cons c t ih =>
    rw [List.all_cons, Bool.and_eq_true] at hs
    intro fuel hf
    obtain ⟨k, rfl⟩ : ∃ k, fuel = k + 1 := ⟨fuel - 1, by simp at hf; omega⟩
    have he : utf8Encode (c :: t) = utf8EncodeChar c ++ utf8Encode t := by
      simp [utf8Encode]
    rw [he, utf8DecodeAux_encodeChar c hs.1 k (utf8Encode t),
      ih hs.2 k (by simp at hf; omega)]
    rfl

theorem utf8Encode_length (s : List Nat) : s.length ≤ (utf8Encode s).length := by
  induction s with
  | nil => simp [utf8Encode]
  | cons c t ih =>
    have he : utf8Encode (c :: t) = utf8EncodeChar c ++ utf8Encode t := by
      simp [utf8Encode]
    have hne : 0 < (utf8EncodeChar c).length :=
      List.length_pos.mpr (utf8EncodeChar_ne_nil c)
    rw [he]
    simp only [List.length_append, List.length_cons]
    omega

theorem utf8_roundtrip (s : List Nat) (h : s.all validCp = true) :
    utf8Decode (utf8Encode s) = some s :=
  utf8DecodeAux_encode s h (utf8Encode s).length (utf8Encode_length s)

theorem utf8EncodeChar_lt256 (c : Nat) (h : validCp c = true) :
    ∀ b ∈ utf8EncodeChar c, b < 256 := by
  have hv : c < 1114112 ∧ (c < 55296 ∨ 57344 ≤ c) := by
    simpa [validCp] using h
  intro b hb
  unfold utf8EncodeChar at hb
  by_cases h1 : c < 128
  · simp [h1] at hb; omega
  · by_cases h2 : c < 2048
    · simp [h1, h2] at hb
      rcases hb with hb | hb <;> omega
    · by_cases h3 : c < 65536
      · simp [h1, h2, h3] at hb
        rcases hb with hb | hb | hb <;> omega
      · simp [h1, h2, h3] at hb
        rcases hb with hb | hb | hb | hb <;> omega

theorem utf8Encode_lt256 (s : List Nat) (h : s.all validCp = true) :
    ∀ b ∈ utf8Encode s, b < 256 := by
  induction s with
  | nil => simp [utf8Encode]
  | cons c t ih =>
    rw [List.all_cons, Bool.and_eq_true] at h
    intro b hb
    have he : utf8Encode (c :: t) = utf8EncodeChar c ++ utf8Encode t := by
      simp [utf8Encode]
    rw [he, List.mem_append] at hb
    rcases hb with hb | hb
    · exact utf8EncodeChar_lt256 c h.1 b hb
    · exact ih h.2 b hb

theorem b64dc_b64c (n : Nat) (h : n < 64) : b64dc (b64c n) = some n := by
  revert h
  revert n
  decide

theorem b64c_ne_pad (n : Nat) (h : n < 64) : ¬ (b64c n = 61) := by
  revert h
  revert n
  decide

theorem b64_roundtrip : ∀ (bs : List Nat), (∀ b ∈ bs, b < 256) →
    b64decode (b64encode bs) = some bs
  | [], _ => by simp [b64encode, b64decode]
  | [a], h => by
    have ha : a < 256 := h a (by simp)
    have h1 : a / 4 < 64 := by omega
    have h2 : a % 4 * 16 < 64 := by omega
    simp only [b64encode, b64decode, b64dc_b64c _ h1, b64dc_b64c _ h2]
    simp only [if_pos rfl, and_self, if_true]
    have : a / 4 * 4 + a % 4 * 16 / 16 = a := by omega
    rw [this]
  | [a, b], h => by
    have ha : a < 256 := h a (by simp)
    have hb : b < 256 := h b (by simp)
    have h1 : a / 4 < 64 := by omega
    have h2 : a % 4 * 16 + b / 16 < 64 := by omega
    have h3 : b % 16 * 4 < 64 := by omega
    have hne : ¬ (b64c (b % 16 * 4) = 61) := b64c_ne_pad _ h3
    simp only [b64encode, b64decode, b64dc_b64c _ h1, b64dc_b64c _ h2]
    rw [if_neg hne]
    simp only [b64dc_b64c _ h3, if_pos rfl, if_true]
    have e1 : (a / 4) * 4 + (a % 4 * 16 + b / 16) / 16 = a := by omega
    have e2 : (a % 4 * 16 + b / 16) % 16 * 16 + b % 16 * 4 / 4 = b := by omega
    rw [e1, e2]
  | a :: b :: c :: rest, h => by
    have ha : a < 256 := h a (by simp)
    have hb : b < 256 := h b (by simp)
    have hc : c < 256 := h c (by simp)
    have ih := b64_roundtrip rest (fun x hx => h x (by simp [hx]))
    have h1 : a / 4 < 64 := by omega
    have h2 : a % 4 * 16 + b / 16 < 64 := by omega
    have h3 : b % 16 * 4 + c / 64 < 64 := by omega
    have h4 : c % 64 < 64 := by omega
    have hne3 : ¬ (b64c (b % 16 * 4 + c / 64) = 61) := b64c_ne_pad _ h3
    have hne4 : ¬ (b64c (c % 64) = 61) := b64c_ne_pad _ h4
    simp only [b64encode, b64decode, b64dc_b64c _ h1, b64dc_b64c _ h2]
    rw [if_neg hne3]
    simp only [b64dc_b64c _ h3]
    rw [if_neg hne4]
    have e1 : (a / 4) * 4 + (a % 4 * 16 + b / 16) / 16 = a := by omega
    have e2 : (a % 4 * 16 + b / 16) % 16 * 16 + (b % 16 * 4 + c / 64) / 4 = b := by omega
    have e3 : (b % 16 * 4 + c / 64) % 4 * 64 + c % 64 = c := by omega
    simp [b64dc_b64c _ h4, ih, e1, e2, e3]

theorem goodCreds_elim (a : AppState) (h : goodCreds a = true) :
    ∃ intg creds tok, a.integration = some intg ∧ intg.credentials = some creds ∧
      creds.access_token = some tok ∧ tok ≠ "" := by
  unfold goodCreds at h
  split at h
  · simp at h
  · rename_i intg hi
    split at h
    · simp at h
    · rename_i creds hcr
      split at h
      · simp at h
      · rename_i tok hat
        simp only [decide_eq_true_eq] at h
        exact ⟨intg, creds, tok, hi, hcr, hat, h⟩

theorem goodCreds_congr (a b : AppState) (h : a.integration = b.integration) :
    goodCreds a = goodCreds b := by
  unfold goodCreds
  rw [h]

theorem getClient_bad (s : Sys) (h : goodCreds s.app = false) :
    ∃ m, getClient s = (.error ⟨"ValueError", m⟩, s, []) := by
  unfold goodCreds at h
  split at h
  · rename_i hi
    exact ⟨"Integration is required", by simp [getClient, hi]⟩
  · rename_i intg hi
    split at h
    · rename_i hcr
      exact ⟨"No credentials found", by simp [getClient, hi, hcr]⟩
    · rename_i creds hcr
      split at h
      · rename_i hat
        exact ⟨"No access token found", by simp [getClient, hi, hcr, hat]⟩
      · rename_i tok hat
        simp only [decide_eq_false_iff_not, not_not] at h
        exact ⟨"No access token found", by simp [getClient, hi, hcr, hat, h]⟩

theorem getClient_cached (s : Sys) (cid : Nat) (h : goodCreds s.app = true)
    (hc : s.app.clientH = some cid) : getClient s = (.ok cid, s, []) := by
  obtain ⟨intg, creds, tok, hi, hcr, hat, ht⟩ := goodCreds_elim _ h
  simp [getClient, hi, hcr, hat, ht, hc]

theorem getClient_fresh (s : Sys) (h : goodCreds s.app = true)
    (hc : s.app.clientH = none) :
    getClient s = (.ok s.app.nextClientId, { s with app := freshApp s },
      [.createClient, .remote "me.get", .remote "sites.root.get"]) := by
  obtain ⟨intg, creds, tok, hi, hcr, hat, ht⟩ := goodCreds_elim _ h
  simp [getClient, hi, hcr, hat, ht, hc, freshApp]

theorem runOp_bad (op : Op) (s : Sys) (h : goodCreds s.app = false) :
    ∃ m, runOp op s = (.error ⟨"ValueError", m⟩, s, []) := by
  obtain ⟨m, hm⟩ := getClient_bad s h
  exact ⟨m, by simp [runOp, hm]⟩

theorem runOp_good_cached (op : Op) (s : Sys) (cid : Nat) (h : goodCreds s.app = true)
    (hc : s.app.clientH = some cid) :
    runOp op s = ((driveStep op s.drive).1, { s with drive := (driveStep op s.drive).2.1 },
      (driveStep op s.drive).2.2.map Event.remote) := by
  simp [runOp, getClient_cached s cid h hc]

theorem runOp_good_fresh (op : Op) (s : Sys) (h : goodCreds s.app = true)
    (hc : s.app.clientH = none) :
    runOp op s = ((driveStep op s.drive).1,
      { app := freshApp s, drive := (driveStep op s.drive).2.1 },
      [Event.createClient, Event.remote "me.get", Event.remote "sites.root.get"] ++
        (driveStep op s.drive).2.2.map Event.remote) := by
  simp [runOp, getClient_fresh s h hc]

theorem runOp_res_good (op : Op) (s : Sys) (h : goodCreds s.app = true) :
    (runOp op s).1 = (driveStep op s.drive).1 := by
  rcases hc : s.app.clientH with _ | cid
  · rw [runOp_good_fresh op s h hc]
  · rw [runOp_good_cached op s cid h hc]

theorem runOp_drive_good (op : Op) (s : Sys) (h : goodCreds s.app = true) :
    (runOp op s).2.1.drive = (driveStep op s.drive).2.1 := by
  rcases hc : s.app.clientH with _ | cid
  · rw [runOp_good_fresh op s h hc]
  · rw [runOp_good_cached op s cid h hc]

theorem runOp_app_good (op : Op) (s : Sys) (h : goodCreds s.app = true) :
    (runOp op s).2.1.app.integration = s.app.integration ∧
      ∃ cid, (runOp op s).2.1.app.clientH = some cid := by
  rcases hc : s.app.clientH with _ | cid
  · rw [runOp_good_fresh op s h hc]
    exact ⟨rfl, s.app.nextClientId, rfl⟩
  · rw [runOp_good_cached op s cid h hc]
    exact ⟨rfl, cid, hc⟩

theorem countCreates_append (a b : List Event) :
    countCreates (a ++ b) = countCreates a + countCreates b := by
  simp [countCreates, List.filter_append]

theorem countCreates_map_remote (l : List String) :
    countCreates (l.map Event.remote) = 0 := by
  induction l with
  | nil => rfl
  | cons a t ih =>
    simp only [List.map_cons, countCreates, List.filter_cons] at *
    simpa using ih

theorem runOp_budget (op : Op) (s : Sys) :
    countCreates (runOp op s).2.2 + clientBudget (runOp op s).2.1.app ≤ clientBudget s.app ∧
    ∀ c, s.app.clientH = some c → (runOp op s).2.1.app.clientH = some c := by
  cases hg : goodCreds s.app with
  | false =>
    obtain ⟨m, hm⟩ := runOp_bad op s hg
    rw [hm]
    exact ⟨by simp [countCreates], fun c hc => hc⟩
  | true =>
    rcases hc : s.app.clientH with _ | cid
    · rw [runOp_good_fresh op s hg hc]
      constructor
      · have h1 : countCreates ([Event.createClient, Event.remote "me.get",
            Event.remote "sites.root.get"] ++ (driveStep op s.drive).2.2.map Event.remote) =
            1 + countCreates ((driveStep op s.drive).2.2.map Event.remote) := by
          simp [countCreates_append, countCreates, List.filter]
          omega
        rw [h1, countCreates_map_remote]
        simp [clientBudget, hc, freshApp]
      · intro c hcc
        simp at hcc
    · rw [runOp_good_cached op s cid hg hc]
      constructor
      · rw [countCreates_map_remote]
        simp [clientBudget, hc]
      · intro c hcc
        show s.app.clientH = some c
        rw [hc]
        exact hcc

theorem runOps_cons (op : Op) (ops : List Op) (s : Sys) :
    runOps (op :: ops) s = ((runOps ops (runOp op s).2.1).1,
      (runOp op s).2.2 ++ (runOps ops (runOp op s).2.1).2) := rfl

theorem runOps_budget (ops : List Op) (s : Sys) :
    countCreates (runOps ops s).2 + clientBudget (runOps ops s).1.app ≤ clientBudget s.app ∧
    ∀ c, s.app.clientH = some c → (runOps ops s).1.app.clientH = some c := by
  induction ops generalizing s with
  | nil => exact ⟨by simp [runOps, countCreates], fun c hc => hc⟩
  | cons op ops ih =>
    have h1 := runOp_budget op s
    have h2 := ih (runOp op s).2.1
    rw [runOps_cons]
    dsimp only
    rw [countCreates_append]
    constructor
    · have h3 := h1.1
      have h4 := h2.1
      omega
    · intro c hc
      exact h2.2 c (h1.2 c hc)

theorem pathValid_append (d : Drive) (fp fp2 : Option String) (nm : String)
    (h : pathValid d fp = true) :
    pathValid { d with folders := d.folders ++ [(fp2, nm)] } fp = true := by
  cases fp with
  | none => rfl
  | some p =>
    simp only [pathValid, List.any_append, Bool.or_eq_true]
    exact Or.inl h

theorem pathValid_files (d : Drive) (fp : Option String) (fs : List FileEntry) :
    pathValid { d with files := fs } fp = pathValid d fp := by
  cases fp <;> rfl

theorem foldersUnder_append (d : Drive) (fp : Option String) (nm : String) :
    foldersUnder { d with folders := d.folders ++ [(fp, nm)] } fp =
      foldersUnder d fp ++ [nm] := by
  simp [foldersUnder, List.filter_append]

theorem driveStep_listFolders (d : Drive) (fp : Option String)
    (hp : pathValid d (pathArg fp) = true) :
    driveStep (.listFolders fp) d =
      (.ok (.names (foldersUnder d (pathArg fp))), d, ["get_folders"]) := by
  simp [driveStep, hp]

theorem driveStep_createFolder (d : Drive) (nm : String) (fp : Option String)
    (hp : pathValid d (pathArg fp) = true) :
    driveStep (.createFolder nm fp) d =
      (.ok (.names (foldersUnder d (pathArg fp) ++ [nm])),
       { d with folders := d.folders ++ [(pathArg fp, nm)] },
       ["create_folder", "get_folders"]) := by
  have h2 := pathValid_append d (pathArg fp) (pathArg fp) nm hp
  simp [driveStep, hp, h2, foldersUnder_append]

theorem driveStep_listDocuments (d : Drive) (fp : String)
    (hp : pathValid d (some fp) = true) :
    driveStep (.listDocuments fp) d =
      (.ok (.docs (docsUnder d fp)), d, ["get_files"]) := by
  simp [driveStep, hp]

theorem driveStep_createDocument (d : Drive) (fp nm : String) (content : List Nat)
    (hc : content.all validCp = true) (hp : pathValid d (some fp) = true) :
    driveStep (.createDocument fp nm content) d =
      (.ok (.docs (docsUnder (uploadDrive d fp nm content) fp)),
       uploadDrive d fp nm content, ["upload_file", "get_files"]) := by
  have hp2 : pathValid { d with files := ⟨fp, nm, utf8Encode content, none, none, none⟩ :: d.files.filter (fun e => decide (¬ (e.folder = fp ∧ e.name = nm))) } (some fp) = true := by
    rw [pathValid_files]
    exact hp
  simp only [driveStep, hc, hp, if_true, hp2, uploadDrive]

theorem findFile_uploadDrive (d : Drive) (fp nm : String) (content : List Nat) :
    findFile (uploadDrive d fp nm content) (fp ++ "/" ++ nm) =
      some ⟨fp, nm, utf8Encode content, none, none, none⟩ := by
  simp [findFile, uploadDrive, List.find?]

theorem processContent_name_size (fp bytes : List Nat) (r : ContentRecord)
    (h : processContent fp bytes = .ok r) :
    r.name = lastComponent fp ∧ r.size = bytes.length := by
  unfold processContent at h
  split at h
  · rcases hd : utf8Decode bytes with _ | s <;> rw [hd] at h
    · simp at h
    · simp only [Except.ok.injEq] at h
      rw [← h]
      exact ⟨rfl, rfl⟩
  · simp only [Except.ok.injEq] at h
    rw [← h]
    exact ⟨rfl, rfl⟩

theorem runOp_ok_driveStep (op : Op) (s : Sys) (v : RValue)
    (h : (runOp op s).1 = .ok v) : (driveStep op s.drive).1 = .ok v := by
  cases hg : goodCreds s.app with
  | false =>
    obtain ⟨m, hm⟩ := runOp_bad op s hg
    rw [hm] at h
    simp at h
  | true =>
    rw [runOp_res_good op s hg] at h
    exact h

theorem deleteStep_ok (fp : String) (d : Drive) (b : Bool)
    (h : (driveStep (.deleteFile fp) d).1 = .ok (.boolean b)) : b = true := by
  simp only [driveStep] at h
  split at h <;> simp_all

/-- C7: for every file path, whenever `delete_file` returns (the remote
delete call does not raise), the returned value is the boolean `True`
(app.py lines 176-190). -/
theorem deleteFile_returns_true (s : Sys) (fp : String) (b : Bool)
    (h : (runOp (.deleteFile fp) s).1 = .ok (.boolean b)) : b = true :=
  deleteStep_ok fp s.drive b (runOp_ok_driveStep (.deleteFile fp) s (.boolean b) h)

/-- Witness for C7: deleting an existing file in a concrete system returns
`True`. -/
theorem deleteFile_returns_true_witness :
    (runOp (.deleteFile "docs/a.txt") cachedSys).1 = .ok (.boolean true) ∧ true = true :=
  ⟨by decide, deleteFile_returns_true cachedSys "docs/a.txt" true (by decide)⟩

/-- C8: the content record returned by `get_document_content` has `name`
equal to the last path component of the requested path and `size` equal to
the number of bytes downloaded, for both classifications
(app.py lines 169-174). -/
theorem getDocumentContent_name_size (s : Sys) (fp : String) (r : ContentRecord)
    (e : FileEntry) (hf : findFile s.drive fp = some e)
    (h : (runOp (.getDocumentContent fp) s).1 = .ok (.contentR r)) :
    r.name = lastComponent (codes fp) ∧ r.size = e.bytes.length := by
  have h2 := runOp_ok_driveStep (.getDocumentContent fp) s (.contentR r) h
  simp only [driveStep, hf] at h2
  rcases hp : processContent (codes fp) e.bytes with er | rr <;> rw [hp] at h2
  · simp at h2
  · simp at h2
    subst h2
    exact processContent_name_size _ _ _ hp

/-- Witness for C8 at a concrete system and path. -/
theorem getDocumentContent_name_size_witness :
    (⟨codes "a.txt", "text", some [104, 105], none, 2⟩ : ContentRecord).name =
      lastComponent (codes "docs/a.txt") ∧
    (⟨codes "a.txt", "text", some [104, 105], none, 2⟩ : ContentRecord).size =
      (⟨"docs", "a.txt", [104, 105], none, none, none⟩ : FileEntry).bytes.length :=
  getDocumentContent_name_size cachedSys "docs/a.txt"
    ⟨codes "a.txt", "text", some [104, 105], none, 2⟩
    ⟨"docs", "a.txt", [104, 105], none, none, none⟩ (by decide) (by decide)

/-- C1: `get_document_content` classifies a file as text exactly when the
lowercased path ends with one of the nine allow-listed extensions; a text
file is returned as its UTF-8 decoding under the `content` key with
content_type `text`, a binary file as the base64 encoding of its bytes under
the `content_base64` key with content_type `binary` (app.py lines 167-174). -/
theorem getDocumentContent_classification (fp bytes : List Nat) :
    (isTextFile fp = true ↔
      ((codes ".txt").isSuffixOf (lowerCodes fp) = true ∨
       (codes ".csv").isSuffixOf (lowerCodes fp) = true ∨
       (codes ".json").isSuffixOf (lowerCodes fp) = true ∨
       (codes ".xml").isSuffixOf (lowerCodes fp) = true ∨
       (codes ".html").isSuffixOf (lowerCodes fp) = true ∨
       (codes ".md").isSuffixOf (lowerCodes fp) = true ∨
       (codes ".js").isSuffixOf (lowerCodes fp) = true ∨
       (codes ".css").isSuffixOf (lowerCodes fp) = true ∨
       (codes ".py").isSuffixOf (lowerCodes fp) = true)) ∧
    (∀ s, isTextFile fp = true → utf8Decode bytes = some s →
      processContent fp bytes =
        .ok ⟨lastComponent fp, "text", some s, none, bytes.length⟩) ∧
    (isTextFile fp = false →
      processContent fp bytes =
        .ok ⟨lastComponent fp, "binary", none, some (b64encode bytes), bytes.length⟩) := by
  refine ⟨?_, ?_, ?_⟩
  · simp [isTextFile, textExts]
  · intro s ht hd
    simp [processContent, ht, hd]
  · intro hf
    simp [processContent, hf]

/-- Witness for C1: a text path is returned decoded, a binary path base64
encoded. -/
theorem getDocumentContent_classification_witness :
    processContent (codes "docs/a.txt") [104, 105] =
      .ok ⟨lastComponent (codes "docs/a.txt"), "text", some [104, 105], none, 2⟩ ∧
    processContent (codes "img/b.png") [0, 255] =
      .ok ⟨lastComponent (codes "img/b.png"), "binary", none, some (b64encode [0, 255]), 2⟩ :=
  ⟨(getDocumentContent_classification (codes "docs/a.txt") [104, 105]).2.1
      [104, 105] (by decide) (by decide),
   (getDocumentContent_classification (codes "img/b.png") [0, 255]).2.2 (by decide)⟩

theorem lowerCodes_suffix (v p : List Nat) (h : v.isSuffixOf p = true) :
    (lowerCodes v).isSuffixOf (lowerCodes p) = true := by
  rw [List.isSuffixOf_iff_suffix] at *
  exact List.IsSuffix.map asciiLower h

theorem asciiLower_idem (n : Nat) : asciiLower (asciiLower n) = asciiLower n := by
  by_cases h : 65 ≤ n ∧ n ≤ 90
  · have h2 : ¬ (65 ≤ n + 32 ∧ n + 32 ≤ 90) := by omega
    have e1 : asciiLower n = n + 32 := by
      unfold asciiLower
      rw [if_pos h]
    rw [e1]
    unfold asciiLower
    rw [if_neg h2]
  · have e1 : asciiLower n = n := by
      unfold asciiLower
      rw [if_neg h]
    rw [e1]
    exact e1

theorem lowerCodes_idem (p : List Nat) : lowerCodes (lowerCodes p) = lowerCodes p := by
  simp only [lowerCodes, List.map_map]
  exact List.map_congr_left (fun a _ => asciiLower_idem a)

/-- C9: the extension classification is case-insensitive: any path ending in
a variant of an allow-listed extension whose lowercasing is on the list is
classified as text, and classification of a path agrees with that of its
lowercased form (app.py line 167). -/
theorem isTextFile_case_insensitive (p : List Nat) :
    (∀ v, lowerCodes v ∈ textExts → v.isSuffixOf p = true → isTextFile p = true) ∧
    isTextFile (lowerCodes p) = isTextFile p := by
  constructor
  · intro v hv hs
    unfold isTextFile
    rw [List.any_eq_true]
    exact ⟨lowerCodes v, hv, lowerCodes_suffix v p hs⟩
  · unfold isTextFile
    simp only [lowerCodes_idem]

/-- Witness for C9: an upper-case `.TXT` path is classified as text. -/
theorem isTextFile_case_insensitive_witness :
    isTextFile (codes "A.TXT") = true ∧
    isTextFile (lowerCodes (codes "A.TXT")) = isTextFile (codes "A.TXT") :=
  ⟨(isTextFile_case_insensitive (codes "A.TXT")).1 (codes ".TXT") (by decide) (by decide),
   (isTextFile_case_insensitive (codes "A.TXT")).2⟩

/-- C2 counterexample: with no integration, `list_folders` raises ValueError,
not an AuthenticationError, so the claimed error class is wrong (the
before-any-remote-call part of the claim does hold). -/
theorem missing_creds_valueerror_cex :
    (runOp (.listFolders none) noIntegrationSys).1 =
      .error ⟨"ValueError", "Integration is required"⟩ ∧
    "ValueError" ≠ "AuthenticationError" := by
  exact ⟨by decide, by decide⟩

/-- C2 (amended): with no valid credential (missing integration, missing
credentials, or missing/empty access token), every operation raises
ValueError, leaves all state unchanged, and issues no remote call
(empty event trace) (app.py lines 40-47). -/
theorem ops_fail_before_remote (op : Op) (s : Sys) (h : goodCreds s.app = false) :
    (runOp op s).2.2 = [] ∧ (runOp op s).2.1 = s ∧
      ∃ m, (runOp op s).1 = .error ⟨"ValueError", m⟩ := by
  obtain ⟨m, hm⟩ := runOp_bad op s h
  rw [hm]
  exact ⟨rfl, rfl, m, rfl⟩

/-- Witness for the amended C2 at a concrete connector without integration. -/
theorem ops_fail_before_remote_witness :
    (runOp (.listFolders none) noIntegrationSys).2.2 = [] ∧
    (runOp (.listFolders none) noIntegrationSys).2.1 = noIntegrationSys ∧
    ∃ m, (runOp (.listFolders none) noIntegrationSys).1 = .error ⟨"ValueError", m⟩ :=
  ops_fail_before_remote (.listFolders none) noIntegrationSys (by decide)

/-- C10: credential validation is re-performed on every operation: even with
a cached client handle (including one supplied at construction), every
operation fails when the integration is missing, returns no credentials, or
returns credentials without an access token (app.py lines 40-47, 22-31). -/
theorem credChecks_every_op (op : Op) (s : Sys) (c : Nat)
    (hc : s.app.clientH = some c) (h : goodCreds s.app = false) :
    ∃ m, (runOp op s).1 = .error ⟨"ValueError", m⟩ := by
  obtain ⟨m, hm⟩ := runOp_bad op s h
  exact ⟨m, by rw [hm]⟩

/-- Witness for C10: a connector with a cached client but no integration
still fails. -/
theorem credChecks_every_op_witness :
    ∃ m, (runOp (.listFolders none) cachedBadSys).1 = .error ⟨"ValueError", m⟩ :=
  credChecks_every_op (.listFolders none) cachedBadSys 0 rfl (by decide)

/-- C6: the client session is created at most once per connector instance:
over any operation sequence at most one creation happens (none when a client
is already cached), and a cached handle is reused unchanged by every
subsequent operation (app.py lines 58-66). -/
theorem session_created_at_most_once (ops : List Op) (s : Sys) :
    countCreates (runOps ops s).2 ≤ clientBudget s.app ∧
    ∀ c, s.app.clientH = some c →
      (runOps ops s).1.app.clientH = some c ∧ countCreates (runOps ops s).2 = 0 := by
  have h := runOps_budget ops s
  constructor
  · have h1 := h.1
    omega
  · intro c hc
    refine ⟨h.2 c hc, ?_⟩
    have hb : clientBudget s.app = 0 := by simp [clientBudget, hc]
    have h1 := h.1
    omega

/-- Witness for C6 at a concrete cached connector and operation sequence. -/
theorem session_created_at_most_once_witness :
    countCreates (runOps [Op.listFolders none, Op.listFolders none] cachedSys).2 ≤
      clientBudget cachedSys.app ∧
    (runOps [Op.listFolders none, Op.listFolders none] cachedSys).1.app.clientH = some 0 ∧
    countCreates (runOps [Op.listFolders none, Op.listFolders none] cachedSys).2 = 0 :=
  ⟨(session_created_at_most_once [Op.listFolders none, Op.listFolders none] cachedSys).1,
   (session_created_at_most_once [Op.listFolders none, Op.listFolders none] cachedSys).2 0 rfl⟩

/-- C3: `create_folder` returns exactly the value of `list_folders` on the
parent path evaluated after the folder is created, and that listing contains
the new folder name (app.py lines 88-106). -/
theorem createFolder_returns_updated_listing (s : Sys) (nm : String) (fp : Option String)
    (hg : goodCreds s.app = true) (hp : pathValid s.drive (pathArg fp) = true) :
    (runOp (.createFolder nm fp) s).1 =
      (runOp (.listFolders fp) (runOp (.createFolder nm fp) s).2.1).1 ∧
    ∃ l, (runOp (.createFolder nm fp) s).1 = .ok (.names l) ∧ nm ∈ l := by
  have hres := runOp_res_good (.createFolder nm fp) s hg
  obtain ⟨hint, cid, hcid⟩ := runOp_app_good (.createFolder nm fp) s hg
  have hg2 : goodCreds (runOp (.createFolder nm fp) s).2.1.app = true := by
    rw [goodCreds_congr _ s.app hint]
    exact hg
  have hres2 := runOp_res_good (.listFolders fp) _ hg2
  have hdrv := runOp_drive_good (.createFolder nm fp) s hg
  rw [hres, hres2, hdrv, driveStep_createFolder s.drive nm fp hp]
  dsimp only
  rw [driveStep_listFolders _ fp (pathValid_append s.drive (pathArg fp) (pathArg fp) nm hp),
    foldersUnder_append]
  exact ⟨rfl, foldersUnder s.drive (pathArg fp) ++ [nm], rfl, by simp⟩

/-- Witness for C3 at a concrete fresh connector. -/
theorem createFolder_returns_updated_listing_witness :
    (runOp (.createFolder "X" (some "docs")) sampleSys).1 =
      (runOp (.listFolders (some "docs"))
        (runOp (.createFolder "X" (some "docs")) sampleSys).2.1).1 ∧
    ∃ l, (runOp (.createFolder "X" (some "docs")) sampleSys).1 = .ok (.names l) ∧ "X" ∈ l :=
  createFolder_returns_updated_listing sampleSys "X" (some "docs") (by decide) (by decide)

/-- C5: `create_document` stores the UTF-8 bytes of the text content as a
file under the target folder and name, and returns exactly the value of
`list_documents` on that folder evaluated after the upload
(app.py lines 131-148). -/
theorem createDocument_returns_updated_listing (s : Sys) (fp nm : String)
    (content : List Nat) (hg : goodCreds s.app = true)
    (hc : content.all validCp = true) (hp : pathValid s.drive (some fp) = true) :
    (runOp (.createDocument fp nm content) s).1 =
      (runOp (.listDocuments fp) (runOp (.createDocument fp nm content) s).2.1).1 ∧
    findFile (runOp (.createDocument fp nm content) s).2.1.drive (fp ++ "/" ++ nm) =
      some ⟨fp, nm, utf8Encode content, none, none, none⟩ ∧
    ∃ l, (runOp (.createDocument fp nm content) s).1 = .ok (.docs l) := by
  have hres := runOp_res_good (.createDocument fp nm content) s hg
  obtain ⟨hint, cid, hcid⟩ := runOp_app_good (.createDocument fp nm content) s hg
  have hg2 : goodCreds (runOp (.createDocument fp nm content) s).2.1.app = true := by
    rw [goodCreds_congr _ s.app hint]
    exact hg
  have hres2 := runOp_res_good (.listDocuments fp) _ hg2
  have hdrv := runOp_drive_good (.createDocument fp nm content) s hg
  have hp2 : pathValid (uploadDrive s.drive fp nm content) (some fp) = true := by
    unfold uploadDrive
    rw [pathValid_files]
    exact hp
  rw [hres, hres2, hdrv, driveStep_createDocument s.drive fp nm content hc hp]
  dsimp only
  rw [driveStep_listDocuments _ fp hp2, findFile_uploadDrive]
  exact ⟨rfl, rfl, docsUnder (uploadDrive s.drive fp nm content) fp, rfl⟩

/-- Witness for C5 at a concrete fresh connector. -/
theorem createDocument_returns_updated_listing_witness :
    (runOp (.createDocument "docs" "b.txt" [104] ) sampleSys).1 =
      (runOp (.listDocuments "docs")
        (runOp (.createDocument "docs" "b.txt" [104]) sampleSys).2.1).1 ∧
    findFile (runOp (.createDocument "docs" "b.txt" [104]) sampleSys).2.1.drive
        ("docs" ++ "/" ++ "b.txt") =
      some ⟨"docs", "b.txt", utf8Encode [104], none, none, none⟩ ∧
    ∃ l, (runOp (.createDocument "docs" "b.txt" [104]) sampleSys).1 = .ok (.docs l) :=
  createDocument_returns_updated_listing sampleSys "docs" "b.txt" [104]
    (by decide) (by decide) (by decide)

/-- C4: uploading text content with `create_document` and reading the file
back with `get_document_content` yields byte-identical content: a
text-classified name returns the original code points, a binary-classified
name returns a base64 payload that decodes to exactly the stored UTF-8 bytes
(app.py lines 131-148 and 150-174). -/
theorem upload_then_read_roundtrip (s : Sys) (fp nm : String) (content : List Nat)
    (hg : goodCreds s.app = true) (hc : content.all validCp = true)
    (hp : pathValid s.drive (some fp) = true) :
    ∃ r, (runOp (.getDocumentContent (fp ++ "/" ++ nm))
            (runOp (.createDocument fp nm content) s).2.1).1 = .ok (.contentR r) ∧
      (isTextFile (codes (fp ++ "/" ++ nm)) = true → r.content = some content) ∧
      (isTextFile (codes (fp ++ "/" ++ nm)) = false →
        r.content_base64 = some (b64encode (utf8Encode content)) ∧
        b64decode (b64encode (utf8Encode content)) = some (utf8Encode content)) := by
  obtain ⟨hint, cid, hcid⟩ := runOp_app_good (.createDocument fp nm content) s hg
  have hg2 : goodCreds (runOp (.createDocument fp nm content) s).2.1.app = true := by
    rw [goodCreds_congr _ s.app hint]
    exact hg
  have hdrv := runOp_drive_good (.createDocument fp nm content) s hg
  have hres2 := runOp_res_good (.getDocumentContent (fp ++ "/" ++ nm)) _ hg2
  rw [hres2, hdrv, driveStep_createDocument s.drive fp nm content hc hp]
  dsimp only
  have hff := findFile_uploadDrive s.drive fp nm content
  by_cases ht : isTextFile (codes (fp ++ "/" ++ nm)) = true
  · have hd : utf8Decode (utf8Encode content) = some content := utf8_roundtrip content hc
    have hpc : processContent (codes (fp ++ "/" ++ nm)) (utf8Encode content) =
        .ok ⟨lastComponent (codes (fp ++ "/" ++ nm)), "text", some content, none,
          (utf8Encode content).length⟩ := by
      simp [processContent, ht, hd]
    refine ⟨⟨lastComponent (codes (fp ++ "/" ++ nm)), "text", some content, none,
      (utf8Encode content).length⟩, ?_, ?_, ?_⟩
    · simp [driveStep, hff, hpc]
    · intro _
      rfl
    · intro hf
      rw [ht] at hf
      simp at hf
  · have ht2 : isTextFile (codes (fp ++ "/" ++ nm)) = false := by
      simpa using ht
    have hpc : processContent (codes (fp ++ "/" ++ nm)) (utf8Encode content) =
        .ok ⟨lastComponent (codes (fp ++ "/" ++ nm)), "binary", none,
          some (b64encode (utf8Encode content)), (utf8Encode content).length⟩ := by
      simp [processContent, ht2]
    refine ⟨⟨lastComponent (codes (fp ++ "/" ++ nm)), "binary", none,
      some (b64encode (utf8Encode content)), (utf8Encode content).length⟩, ?_, ?_, ?_⟩
    · simp [driveStep, hff, hpc]
    · intro htt
      rw [ht2] at htt
      simp at htt
    · intro _
      exact ⟨rfl, b64_roundtrip (utf8Encode content) (utf8Encode_lt256 content hc)⟩

/-- Witness for C4 at a concrete fresh connector and a text file name. -/
theorem upload_then_read_roundtrip_witness :
    ∃ r, (runOp (.getDocumentContent ("docs" ++ "/" ++ "c.txt"))
            (runOp (.createDocument "docs" "c.txt" [104]) sampleSys).2.1).1 =
          .ok (.contentR r) ∧
      (isTextFile (codes ("docs" ++ "/" ++ "c.txt")) = true → r.content = some [104]) ∧
      (isTextFile (codes ("docs" ++ "/" ++ "c.txt")) = false →
        r.content_base64 = some (b64encode (utf8Encode [104])) ∧
        b64decode (b64encode (utf8Encode [104])) = some (utf8Encode [104])) :=
  upload_then_read_roundtrip sampleSys "docs" "c.txt" [104]
    (by decide) (by decide) (by decide)
